import Mathlib

/-!
Verification of turnkeylinux-apps/domain-controller against its
natural-language specification.

The development shallowly embeds the relevant parts of the two Python
source files:
  src/overlay/usr/lib/inithooks/bin/domain-controller.py
  src/overlay/usr/lib/inithooks/bin/dialog_wrapper.py
Strings are modelled as Lean `String` / `List Char`; file contents as
`List Char`; the process environment (command exit codes, ping results,
user dialog responses) is passed in explicitly.  Each embedded function
carries a comment pointing at the Python code it translates.
-/

namespace DomainController

/-! ### Constants (domain-controller.py lines 77-83) -/

def ADMIN_USER : String := "administrator"

def RESOLVCNF_HEAD : String := "/etc/resolvconf/resolv.conf.d/head"

def HOSTS_FILE : String := "/etc/hosts"

def COMMAND_LOG : String := "/var/log/inithooks/samba_dc.log"

/-! ### C1: `valid_ip` (domain-controller.py lines 106-111)

`valid_ip` calls `socket.inet_aton(address)` and returns the address on
success and `False` on `OSError`.  On Linux, `socket.inet_aton` is the C
library's `inet_aton`, which parses the classic numbers-and-dots notation:
one to four parts separated by dots, each part a C-style numeral
(decimal, `0`-prefixed octal, or `0x`-prefixed hexadecimal, parsed by
`strtoul` with base 0).  Parts before the last must fit in a byte; the
last part must fit in the remaining bytes.  A single trailing character
is tolerated if it is ASCII whitespace.  The functions below translate
that parse. -/

def isOctDigitB (c : Char) : Bool := '0' ≤ c && c ≤ '7'

def hexDigitVal (c : Char) : Option Nat :=
  if c.isDigit then some (c.toNat - 48)
  else if 'a' ≤ c && c ≤ 'f' then some (c.toNat - 87)
  else if 'A' ≤ c && c ≤ 'F' then some (c.toNat - 55)
  else none

/-- Greedy run of decimal digits, accumulating a value (strtoul, base 10). -/
def decDigits : List Char → Nat → Nat × List Char
  | [], acc => (acc, [])
  | c :: cs, acc =>
    if c.isDigit then decDigits cs (acc * 10 + (c.toNat - 48)) else (acc, c :: cs)

/-- Greedy run of octal digits, accumulating a value (strtoul, base 8). -/
def octDigits : List Char → Nat → Nat × List Char
  | [], acc => (acc, [])
  | c :: cs, acc =>
    if isOctDigitB c then octDigits cs (acc * 8 + (c.toNat - 48)) else (acc, c :: cs)

/-- Greedy run of hexadecimal digits, accumulating a value (strtoul, base 16). -/
def hexDigits : List Char → Nat → Nat × List Char
  | [], acc => (acc, [])
  | c :: cs, acc =>
    match hexDigitVal c with
    | some v => hexDigits cs (acc * 16 + v)
    | none => (acc, c :: cs)

/-- C-style numeral parse, `strtoul(cp, &endp, 0)`, returning the value and
the unconsumed remainder.  Only called on input whose first character is a
decimal digit.  A bare `0x` with no following hex digit consumes only the
`0`, exactly as `strtoul` leaves `endp` there. -/
def parseNum (cs : List Char) : Nat × List Char :=
  match cs with
  | [] => (0, [])
  | c :: rest =>
    if c = '0' then
      match rest with
      | x :: cs2 =>
        if x = 'x' ∨ x = 'X' then
          match cs2 with
          | c2 :: _ => if (hexDigitVal c2).isSome then hexDigits cs2 0 else (0, x :: cs2)
          | [] => (0, x :: cs2)
        else octDigits rest 0
      | [] => (0, [])
    else decDigits cs 0

/-- C locale `isspace`. -/
def cIsSpace (c : Char) : Bool :=
  c = ' ' || c = '\t' || c = '\n' || c = '\x0b' || c = '\x0c' || c = '\r'

/-- Trailing-character check of `inet_aton`: the character at which number
parsing stopped must be absent or ASCII whitespace. -/
def atonTrailOk : List Char → Bool
  | [] => true
  | c :: _ => decide (c.toNat ≤ 127) && cIsSpace c

/-- Main loop of `inet_aton`.  `fuel` is the number of dot-separated parts
that may still be stored (3 at top level); `maxv` is the bound for the
final part, `2 ^ (8 * (fuel + 1)) - 1` at every call site. -/
def atonAux (fuel : Nat) (maxv : Nat) (cs : List Char) : Bool :=
  match cs with
  | [] => false
  | c :: _ =>
    if c.isDigit then
      let vr := parseNum cs
      match vr.2 with
      | '.' :: rest2 =>
        match fuel with
        | 0 => false
        | fuel' + 1 => decide (vr.1 ≤ 255) && atonAux fuel' (maxv / 256) rest2
      | _ => atonTrailOk vr.2 && decide (vr.1 ≤ maxv)
    else false

/-- Acceptance of `socket.inet_aton` on a Python string. -/
def inet_aton_ok (s : String) : Bool := atonAux 3 0xffffffff s.toList

/-- `valid_ip` (lines 106-111): returns the address when `inet_aton`
succeeds, `False` (here `none`) when it raises `OSError`. -/
def valid_ip (address : String) : Option String :=
  if inet_aton_ok address then some address else none

/-! Python-style split helpers, used both by the spec-side definitions and
by the condensed-error-message model (`str.split` keeps empty fields;
`maxsplit` limits the number of cuts). -/

/-- Python `s.split(sep)` on characters (unbounded). -/
def pySplit (sep : Char) : List Char → List (List Char)
  | [] => [[]]
  | c :: cs =>
    if c = sep then [] :: pySplit sep cs
    else
      match pySplit sep cs with
      | [] => [[c]]
      | p :: ps => (c :: p) :: ps

/-- Python `s.split(sep, maxsplit)` on characters. -/
def pySplitN (sep : Char) : Nat → List Char → List (List Char)
  | _, [] => [[]]
  | 0, cs => [cs]
  | Nat.succ n, c :: cs =>
    if c = sep then [] :: pySplitN sep n cs
    else
      match pySplitN sep (Nat.succ n) cs with
      | [] => [[c]]
      | p :: ps => (c :: p) :: ps

/-! Spec-side definitions for C1, written from the claim's words: a strict
dotted quad is exactly four dot-separated decimal octets each in 0-255. -/

/-- Value of a decimal digit string. -/
def decValue (cs : List Char) : Nat := cs.foldl (fun a c => a * 10 + (c.toNat - 48)) 0

/-- Decimal octet in 0-255 (claim wording). -/
def octetOk (p : List Char) : Bool :=
  !p.isEmpty && p.all Char.isDigit && decide (decValue p ≤ 255)

/-- Strict dotted-quad predicate, following the claim's words. -/
def strictDottedQuad (s : String) : Bool :=
  let ps := pySplit '.' s.toList
  ps.length == 4 && ps.all octetOk

/-- Decimal octet in 0-255 with no redundant leading zero (the canonical
decimal spelling). -/
def canonOctet (p : List Char) : Bool :=
  octetOk p && (p.headD ' ' != '0' || p == ['0'])

/-- Dotted quad whose octets carry no redundant leading zero. -/
def strictDottedQuadCanonical (s : String) : Bool :=
  let ps := pySplit '.' s.toList
  ps.length == 4 && ps.all canonOctet

/-- Inverse of `pySplit '.'`: interleave the parts with dots. -/
def joinDots : List (List Char) → List Char
  | [] => []
  | [p] => p
  | p :: ps => p ++ '.' :: joinDots ps

/-! ### C2: the command orchestrator (domain-controller.py lines 538-591)

Each attempt runs an ordered list of external commands.  The exit code
and combined output of each command are environment data, so a step is
modelled together with the result its command would produce. -/

structure CmdStep where
  argv : List String
  stdinPayload : Option String
deriving DecidableEq

structure CmdResult where
  code : Int
  output : String
deriving DecidableEq

inductive RunOutcome where
  /-- The for-loop ran to the end; `finalize` is the final value of the flag
  (lines 530, 578, 591). -/
  | completed (finalize : Bool)
  /-- Interactive: the failing step was logged, the condensed error shown,
  the session fields reset and the loop broken (lines 554-586). -/
  | halted (step : CmdStep) (res : CmdResult)
  /-- Non-interactive: `fatal` exits the process with the step's output
  (lines 587-589). -/
  | fatalExit (step : CmdStep) (res : CmdResult)
deriving DecidableEq

/-- The `for samba_command in commands` loop (lines 538-591): run steps in
order; a non-zero exit code stops the attempt (break when interactive,
process exit otherwise); a zero exit sets `finalize = True`.  Returns the
list of steps actually spawned and the outcome. -/
def runCommands (interactive : Bool) (finalize : Bool) :
    List (CmdStep × CmdResult) → List (CmdStep × CmdResult) × RunOutcome
  | [] => ([], .completed finalize)
  | p :: rest =>
    if p.2.code ≠ 0 then
      ([p], if interactive then .halted p.1 p.2 else .fatalExit p.1 p.2)
    else
      let out := runCommands interactive true rest
      (p :: out.1, out.2)

/-! ### C3 / C9: session reset on interactive failure
(domain-controller.py lines 328-346, 577-586, 626-628) -/

/-- Mutable state of the provisioning session: the five resolved fields and
the interactive defaults that seed the dialog prompts. -/
structure Session where
  realm : String
  domain : String
  admin_password : String
  join_nameserver : String
  hostname : String
  DEFAULT_REALM : String
  DEFAULT_DOMAIN : String
  DEFAULT_NS : String
deriving DecidableEq

/-- Relevant slice of the filesystem: the two files the script backs up,
with their `.bak` copies (`none` = the backup file does not exist). -/
structure Fs where
  resolv_head : List Char
  resolv_bak : Option (List Char)
  hosts : List Char
  hosts_bak : Option (List Char)
deriving DecidableEq

/-- Lines 578-585: on an interactive command failure the last realm, domain
and join-nameserver become the new dialog defaults and those fields plus
the password are cleared.  `hostname` is left untouched. -/
def failureReset (s : Session) : Session :=
  { s with
    DEFAULT_REALM := s.realm
    realm := ""
    DEFAULT_DOMAIN := s.domain
    domain := ""
    admin_password := ""
    DEFAULT_NS := s.join_nameserver
    join_nameserver := "" }

/-- `restore_resolvconf` (lines 255-257): `shutil.move` of the `.bak` over
the live file.  A missing backup would raise `FileNotFoundError`; that
error path is not modelled (the function is only invoked after a backup
was made). -/
def restore_resolvconf (fs : Fs) : Fs :=
  match fs.resolv_bak with
  | some b => { fs with resolv_head := b, resolv_bak := none }
  | none => fs

/-- `restore_hosts` (lines 288-289). -/
def restore_hosts (fs : Fs) : Fs :=
  match fs.hosts_bak with
  | some b => { fs with hosts := b, hosts_bak := none }
  | none => fs

/-- Initial value offered by the realm dialog on the next prompt: the
`init` argument of `d.get_input` is `DEFAULT_REALM` (line 413). -/
def realmPromptInit (s : Session) : Option String := some s.DEFAULT_REALM

/-- Initial value offered by the NetBIOS-domain dialog (line 431). -/
def domainPromptInit (s : Session) : Option String := some s.DEFAULT_DOMAIN

/-- Initial value offered by the join-nameserver dialog (line 459). -/
def nsPromptInit (s : Session) : Option String := some s.DEFAULT_NS

/-- Initial value offered by the password dialog: `d.get_password`
(dialog_wrapper.py line 132) has no initial-value parameter at all, so no
previous entry can be offered back. -/
def passwordPromptInit (_ : Session) : Option String := none

/-- Interactive failure path of `main`: the field reset of lines 578-585,
the `break` out of the command loop with `finalize = False`, and the
restore of both backed-up files (lines 626-628).  The boolean records that
the enclosing `while True` loop continues (no `break` is executed on this
path), i.e. control returns to parameter resolution. -/
def onInteractiveFailure (s : Session) (fs : Fs) : Session × Fs × Bool :=
  (failureReset s, restore_hosts (restore_resolvconf fs), true)

/-! ### C4: condensed interactive error message
(domain-controller.py lines 554-577) -/

/-- Python `"-".join(line.split("-", 2)[:2])`: the first two
hyphen-delimited segments, re-joined (lines 562, 569). -/
def firstTwoSegments (line : List Char) : List Char :=
  List.intercalate ['-'] ((pySplitN '-' 2 line).take 2)

/-- Python `line.split("-", 1)[:1][0]`: the text before the first hyphen
(line 565). -/
def firstSegment (line : List Char) : List Char :=
  (pySplitN '-' 1 line).headD []

def bindMarker : List Char := "Failed to bind".toList

def connectMarker : List Char := "Failed to connect".toList

def errorMarker : List Char := "ERROR".toList

/-- Line scan of lines 557-574.  `endFlag` is the `end` variable: once an
`ERROR` line sets it, plain lines are dropped, but the three marker
branches do not consult it. -/
def condenseAux : List (List Char) → Bool → List (List Char)
  | [], _ => []
  | line :: rest, endFlag =>
    if bindMarker <+: line then firstTwoSegments line :: condenseAux rest endFlag
    else if connectMarker <+: line then firstSegment line :: condenseAux rest endFlag
    else if errorMarker <+: line then firstTwoSegments line :: condenseAux rest true
    else if endFlag then condenseAux rest endFlag
    else line :: condenseAux rest endFlag

def seeLogLine : List Char := ("See " ++ COMMAND_LOG ++ " for full output").toList

/-- `lines_to_print` as built by lines 557-576: the scan of the captured
output split on newlines, then an empty line and the pointer to the log. -/
def condensedErrorLines (out : List Char) : List (List Char) :=
  condenseAux (pySplit '\n' out) false ++ [[], seeLogLine]

/-- Spec-side scan, written from the claim's words: both `Failed to` markers
contribute the first TWO hyphen-delimited segments, and after an `ERROR`
line ALL subsequent lines are suppressed. -/
def condenseClaimAux : List (List Char) → Bool → List (List Char)
  | [], _ => []
  | line :: rest, endFlag =>
    if endFlag then condenseClaimAux rest endFlag
    else if bindMarker <+: line || connectMarker <+: line then
      firstTwoSegments line :: condenseClaimAux rest endFlag
    else if errorMarker <+: line then firstTwoSegments line :: condenseClaimAux rest true
    else line :: condenseClaimAux rest endFlag

/-- Condensed message as the claim describes it. -/
def condensedErrorLinesClaim (out : List Char) : List (List Char) :=
  condenseClaimAux (pySplit '\n' out) false ++ [[], seeLogLine]

/-- Contribution of one marker line, for the amended wording. -/
def markerContribution (line : List Char) : Option (List Char) :=
  if bindMarker <+: line then some (firstTwoSegments line)
  else if connectMarker <+: line then some (firstSegment line)
  else if errorMarker <+: line then some (firstTwoSegments line)
  else none

/-- Amended-wording scan: a `Failed to bind` or `ERROR` line contributes its
first two hyphen-delimited segments, a `Failed to connect` line contributes
the text before its first hyphen, an `ERROR` line starts suppression, and
suppression applies only to non-marker lines. -/
def condenseAmendedAux : List (List Char) → Bool → List (List Char)
  | [], _ => []
  | line :: rest, endFlag =>
    let endFlag' := endFlag || (errorMarker <+: line : Bool)
    match markerContribution line with
    | some contrib => contrib :: condenseAmendedAux rest endFlag'
    | none =>
      if endFlag then condenseAmendedAux rest endFlag'
      else line :: condenseAmendedAux rest endFlag'

/-- Condensed message as amended. -/
def condensedErrorLinesAmended (out : List Char) : List (List Char) :=
  condenseAmendedAux (pySplit '\n' out) false ++ [[], seeLogLine]

/-! ### C5: which files are backed up before mutation

The filesystem side effects of one provisioning attempt, in program
order, as an event trace.  `backup p` is a `shutil.copy2` of `p` to
`p + '.bak'`; `write p` opens `p` for writing; `remove p` deletes it. -/

inductive FsEvent where
  | backup (path : String)
  | write (path : String)
  | remove (path : String)
deriving DecidableEq

/-- `update_resolvconf` success path (lines 235-251): copy to `.bak`, then
rewrite in place. -/
def update_resolvconf_fsEvents : List FsEvent :=
  [.backup RESOLVCNF_HEAD, .write RESOLVCNF_HEAD]

/-- `update_hosts` (lines 264-285): copy to `.bak`, then rewrite. -/
def update_hosts_fsEvents : List FsEvent :=
  [.backup HOSTS_FILE, .write HOSTS_FILE]

/-- `set_hostname` (lines 188-191): writes `/etc/hostname` with no backup. -/
def set_hostname_fsEvents : List FsEvent :=
  [.write "/etc/hostname"]

/-- Lines 487-488: the Samba and Kerberos configuration files are removed at
the start of every attempt. -/
def preclean_fsEvents : List FsEvent :=
  [.remove "/etc/samba/smb.conf", .remove "/etc/krb5.conf"]

/-- Lines 516-520 (join branch): a fresh `/etc/krb5.conf` is written with no
backup. -/
def krb5_conf_fsEvents : List FsEvent :=
  [.write "/etc/krb5.conf"]

/-- File events of one interactive JOIN attempt, in program order:
`update_resolvconf` at line 467, `set_hostname` at line 479, the removals
at 487-488, the krb5.conf stub at 516-520, `update_resolvconf` again at
line 532 and `update_hosts` at line 534 (`ip` is `None` when joining, so
line 536 does not run). -/
def join_attempt_fsEvents : List FsEvent :=
  update_resolvconf_fsEvents ++ set_hostname_fsEvents ++ preclean_fsEvents ++
    krb5_conf_fsEvents ++ update_resolvconf_fsEvents ++ update_hosts_fsEvents

/-- File events of one CREATE attempt: the removals at 487-488, then
`update_resolvconf` (line 532) and `update_hosts` twice (lines 534, 536,
`ip = NET_IP`). -/
def create_attempt_fsEvents : List FsEvent :=
  preclean_fsEvents ++ update_resolvconf_fsEvents ++
    update_hosts_fsEvents ++ update_hosts_fsEvents

/-- Scan of a trace: `true` iff a backup of `p` occurs before the first
write to `p` (vacuously true when `p` is never written). -/
def backupPrecedesWrite (p : String) : List FsEvent → Bool
  | [] => true
  | .backup q :: rest => if q = p then true else backupPrecedesWrite p rest
  | .write q :: rest => if q = p then false else backupPrecedesWrite p rest
  | .remove _ :: rest => backupPrecedesWrite p rest

/-! ### Line-oriented file rewriting (shared by C6 and C7)

Python `fob.readlines()` splits a file into lines, each keeping its
terminating newline; a final unterminated line is kept as-is;
`fob.writelines(ls)` concatenates them back. -/

def readlines : List Char → List (List Char)
  | [] => []
  | c :: cs =>
    if c = '\n' then ['\n'] :: readlines cs
    else
      match readlines cs with
      | [] => [[c]]
      | l :: ls => (c :: l) :: ls

/-! ### C6: `update_resolvconf` (domain-controller.py lines 230-252) -/

inductive ResolvOutcome where
  /-- Non-interactive ping failure: `fatal` exits the process (line 103). -/
  | fatalExit (msg : String)
  /-- Interactive ping failure: `error_msg` returns `(False, msg)` to the
  caller (lines 99-101, 231-234). -/
  | blocked (msg : String)
  | updated
deriving DecidableEq

def ping_fail_msg (nameserver : String) : String :=
  "No client is responding to ping at ip address " ++ nameserver ++ "."

def nameserverTerm : List Char := "nameserver".toList

def searchTerm : List Char := "search".toList

def domainTerm : List Char := "domain".toList

/-- Inner `for term in terms` loop of lines 240-248: a line starting with a
term is replaced by `term value`. -/
def resolvTermStep (domainV nsV : List Char) (line term : List Char) : List Char :=
  if term <+: line then
    term ++ ' ' :: (if term = nameserverTerm then nsV else domainV) ++ ['\n']
  else line

/-- Rewrite of the resolver head file (lines 236-251). -/
def resolvRewrite (domainV nsV content : List Char) : List Char :=
  ((readlines content).map
    (fun l => [nameserverTerm, searchTerm, domainTerm].foldl (resolvTermStep domainV nsV) l)).flatten

/-- `update_resolvconf(domain, nameserver, interactive)` with the ping
result supplied by the environment.  On ping failure nothing is backed up
or written (the `error_msg` call at lines 231-234 precedes the `copy2` at
line 235); otherwise the head file is copied to `.bak` and rewritten. -/
def update_resolvconf (domainArg nameserver : String) (interactive pingOk : Bool)
    (fs : Fs) : ResolvOutcome × Fs :=
  if pingOk then
    (.updated,
      { fs with
        resolv_bak := some fs.resolv_head
        resolv_head := resolvRewrite domainArg.toList nameserver.toList fs.resolv_head })
  else if interactive then (.blocked (ping_fail_msg nameserver), fs)
  else (.fatalExit (ping_fail_msg nameserver), fs)

/-- Call site of `update_resolvconf` in `main` (line 532, likewise line
467): a bare expression statement.  The returned outcome is discarded and
no dialog call follows, so the list of dialogs shown as a result of this
statement is empty. -/
def main_update_resolvconf_call (domainArg nameserver : String)
    (interactive pingOk : Bool) (fs : Fs) : Fs × List String :=
  ((update_resolvconf domainArg nameserver interactive pingOk fs).2, [])

/-! ### C7: `update_hosts` (domain-controller.py lines 260-285) -/

def localdomainChars : List Char := "127.0.1.1".toList

/-- Python ASCII lowercasing of one character (`str.lower`). -/
def pyLower (c : Char) : Char :=
  if c.isUpper then Char.ofNat (c.toNat + 32) else c

/-- `fqdn = '.'.join([hostname, domain]).lower()` (line 265). -/
def fqdnOf (hostname domainArg : List Char) : List Char :=
  (hostname ++ '.' :: domainArg).map pyLower

/-- `' '.join((a, hostname, fqdn)) + '\n'` (lines 274, 278). -/
def mkHostLine (a hostname fqdn : List Char) : List Char :=
  a ++ ' ' :: hostname ++ ' ' :: fqdn ++ ['\n']

/-- Per-line transform of the `for line in hosts` loop (lines 271-282):
comment lines pass through; a line starting with `127.0.1.1` becomes the
canonical loopback-alias line, plus (when `ip` differs) a second line for
`ip`; a non-comment line starting with `ip` is dropped (replaced by the
empty string, which `writelines` ignores); all other lines pass through. -/
def processLine (ip hostname fqdn : List Char) (line : List Char) : List (List Char) :=
  if ['#'] <+: line then [line]
  else if localdomainChars <+: line then
    if ip ≠ localdomainChars then
      [mkHostLine localdomainChars hostname fqdn, mkHostLine ip hostname fqdn]
    else
      [mkHostLine localdomainChars hostname fqdn]
  else if ip <+: line then [[]]
  else [line]

/-- `update_hosts(ip, hostname, domain)` as a pure content transform:
read the lines, transform each, write the concatenation back. -/
def update_hosts (ip hostname domainArg content : List Char) : List Char :=
  (((readlines content).map (processLine ip hostname (fqdnOf hostname domainArg))).flatten).flatten

/-- Shape invariant for lists of chunks produced by line processing: every
chunk is a newline-terminated line with no interior newline, or the empty
chunk, except that the final chunk may be a nonempty unterminated line.
`readlines` output and the chunk lists emitted by `processLine` both
satisfy it, and concatenating such a list and re-reading it recovers
exactly the nonempty chunks. -/
inductive BlocksOK : List (List Char) → Prop
  | nil : BlocksOK []
  | consEmpty (ls : List (List Char)) : BlocksOK ls → BlocksOK ([] :: ls)
  | consTerm (a : List Char) (ls : List (List Char)) :
      '\n' ∉ a → BlocksOK ls → BlocksOK ((a ++ ['\n']) :: ls)
  | lastRaw (a : List Char) : '\n' ∉ a → a ≠ [] → BlocksOK [a]

/-- Chunks that may be followed by further chunks: empty, or a terminated
newline-free line. -/
def GoodBlock (l : List Char) : Prop :=
  l = [] ∨ ∃ a, '\n' ∉ a ∧ l = a ++ ['\n']

/-! ### C8: the password-prompt invocation

`Dialog.get_password` (dialog_wrapper.py line 132) declares exactly the
parameters below after `self`.  `main` (domain-controller.py lines
447-451) invokes it with two positional arguments and three keyword
arguments.  Python binds a keyword argument only to a declared parameter
of that name; an unknown keyword raises `TypeError` at the call. -/

def get_password_declaredParams : List String :=
  ["title", "text", "pass_req", "min_complexity"]

def main_get_password_kwargs : List String :=
  ["pass_req", "min_complexity", "blacklist"]

/-- Python keyword-argument binding succeeds iff every keyword names a
declared parameter (no `**kwargs` catch-all is declared). -/
def pythonKwargsBindOk (declared kwargs : List String) : Bool :=
  kwargs.all (fun k => declared.contains k)

/-! ### C10: `Dialog.get_input` (dialog_wrapper.py lines 196-203)

The sequence of strings the user would enter into successive input boxes
is environment data.  The loop consumes entries until a non-empty one
arrives, showing `'<title> is required.'` for each empty entry; if the
supplied entries run out first the loop would keep prompting, modelled as
`none`.  Returns the result and the error messages shown. -/

def get_input (title : String) : List String → Option String × List String
  | [] => (none, [])
  | s :: rest =>
    if s = "" then
      let out := get_input title rest
      (out.1, (title ++ " is required.") :: out.2)
    else (some s, [])

/-! ## Theorems -/

/-! ### C2: the orchestrator stops at the first failing step -/

/-- C2: for any attempt whose steps are `pre` (all exiting 0) followed by a
failing step `(s, r)` and arbitrary further steps `post`, the command loop
spawns exactly `pre ++ [(s, r)]` — nothing after the first failure — and
the reported outcome (interactive halt or non-interactive fatal exit)
carries precisely the first failing step and its result. -/
theorem runCommands_stops_at_first_failure
    (interactive finalize : Bool) (pre : List (CmdStep × CmdResult))
    (s : CmdStep) (r : CmdResult) (post : List (CmdStep × CmdResult))
    (hpre : ∀ x ∈ pre, x.2.code = 0) (hr : r.code ≠ 0) :
    runCommands interactive finalize (pre ++ (s, r) :: post)
      = (pre ++ [(s, r)],
         if interactive then .halted s r else .fatalExit s r) := by
  induction pre generalizing finalize with
  | nil => simp [runCommands, hr]
  | cons a pre ih =>
    have ha : a.2.code = 0 := hpre a (by simp)
    have hrest : ∀ x ∈ pre, x.2.code = 0 := fun x hx => hpre x (by simp [hx])
    simp [runCommands, ha, ih true hrest]

/-- Witness for C2: with steps A(exit 0), B(exit 1), C(exit 0) in an
interactive session, C is never spawned and the halt reports B. -/
theorem runCommands_stops_at_first_failure_witness :
    runCommands true false
      [(⟨["stepA"], none⟩, ⟨0, ""⟩), (⟨["stepB"], none⟩, ⟨1, "boom"⟩),
       (⟨["stepC"], none⟩, ⟨0, ""⟩)]
      = ([(⟨["stepA"], none⟩, ⟨0, ""⟩), (⟨["stepB"], none⟩, ⟨1, "boom"⟩)],
         .halted ⟨["stepB"], none⟩ ⟨1, "boom"⟩) := by
  have h := runCommands_stops_at_first_failure true false
    [(⟨["stepA"], none⟩, ⟨0, ""⟩)] ⟨["stepB"], none⟩ ⟨1, "boom"⟩
    [(⟨["stepC"], none⟩, ⟨0, ""⟩)] (by decide) (by decide)
  simpa using h

/-! ### C3: state reset on interactive command failure -/

/-- C3 counterexample: the claim also asserts that the administrator
password's last value is remembered as the new interactive default, but the
password dialog has no initial-value parameter, so after the reset no
prompt offers the old password back.  At this concrete session/filesystem
the claim's conjunction is false (its password-default conjunct fails; the
other conjuncts hold). -/
theorem interactive_failure_password_default_counterexample :
    ¬ ((onInteractiveFailure
          ⟨"EXAMPLE.LAN", "EXAMPLE", "Oldpass1", "10.0.0.7", "dc2x",
           "DOMAIN.LAN", "DOMAIN", ""⟩
          ⟨"nameserver 10.0.0.7\n".toList, some "nameserver 8.8.8.8\n".toList,
           "mutated hosts\n".toList, some "original hosts\n".toList⟩).1.realm = ""
        ∧ (onInteractiveFailure
          ⟨"EXAMPLE.LAN", "EXAMPLE", "Oldpass1", "10.0.0.7", "dc2x",
           "DOMAIN.LAN", "DOMAIN", ""⟩
          ⟨"nameserver 10.0.0.7\n".toList, some "nameserver 8.8.8.8\n".toList,
           "mutated hosts\n".toList, some "original hosts\n".toList⟩).1.admin_password = ""
        ∧ passwordPromptInit (onInteractiveFailure
          ⟨"EXAMPLE.LAN", "EXAMPLE", "Oldpass1", "10.0.0.7", "dc2x",
           "DOMAIN.LAN", "DOMAIN", ""⟩
          ⟨"nameserver 10.0.0.7\n".toList, some "nameserver 8.8.8.8\n".toList,
           "mutated hosts\n".toList, some "original hosts\n".toList⟩).1
            = some "Oldpass1") := by decide

/-- C3 amended: on an interactive command failure the realm, domain,
password and join-nameserver are cleared; realm, domain and join-nameserver
(but not the password, which has no prompt default) are remembered as the
next prompts' initial values; both backed-up files are restored from their
`.bak` copies (which are consumed); and the top-level loop continues to
parameter resolution. -/
theorem interactive_failure_reset_amended
    (s : Session) (fs : Fs) (rb hb : List Char)
    (hrb : fs.resolv_bak = some rb) (hhb : fs.hosts_bak = some hb) :
    onInteractiveFailure s fs
      = ({ s with
            realm := ""
            domain := ""
            admin_password := ""
            join_nameserver := ""
            DEFAULT_REALM := s.realm
            DEFAULT_DOMAIN := s.domain
            DEFAULT_NS := s.join_nameserver },
         { fs with
            resolv_head := rb
            resolv_bak := none
            hosts := hb
            hosts_bak := none },
         true)
    ∧ realmPromptInit (onInteractiveFailure s fs).1 = some s.realm
    ∧ domainPromptInit (onInteractiveFailure s fs).1 = some s.domain
    ∧ nsPromptInit (onInteractiveFailure s fs).1 = some s.join_nameserver
    ∧ passwordPromptInit (onInteractiveFailure s fs).1 = none := by
  refine ⟨?_, rfl, rfl, rfl, rfl⟩
  simp [onInteractiveFailure, failureReset, restore_resolvconf, restore_hosts, hrb, hhb]

/-- Witness for C3 amended at a concrete failed session. -/
theorem interactive_failure_reset_amended_witness :
    (onInteractiveFailure
        ⟨"EXAMPLE.LAN", "EXAMPLE", "Oldpass1", "10.0.0.7", "dc2x",
         "DOMAIN.LAN", "DOMAIN", ""⟩
        ⟨"nameserver 10.0.0.7\n".toList, some "nameserver 8.8.8.8\n".toList,
         "mutated hosts\n".toList, some "original hosts\n".toList⟩).2.1.resolv_head
      = "nameserver 8.8.8.8\n".toList
    ∧ (onInteractiveFailure
        ⟨"EXAMPLE.LAN", "EXAMPLE", "Oldpass1", "10.0.0.7", "dc2x",
         "DOMAIN.LAN", "DOMAIN", ""⟩
        ⟨"nameserver 10.0.0.7\n".toList, some "nameserver 8.8.8.8\n".toList,
         "mutated hosts\n".toList, some "original hosts\n".toList⟩).2.2 = true := by
  have h := interactive_failure_reset_amended
    ⟨"EXAMPLE.LAN", "EXAMPLE", "Oldpass1", "10.0.0.7", "dc2x",
     "DOMAIN.LAN", "DOMAIN", ""⟩
    ⟨"nameserver 10.0.0.7\n".toList, some "nameserver 8.8.8.8\n".toList,
     "mutated hosts\n".toList, some "original hosts\n".toList⟩
    "nameserver 8.8.8.8\n".toList "original hosts\n".toList rfl rfl
  exact ⟨by rw [h.1], by rw [h.1]⟩

/-! ### C5: backups do not cover every mutated file -/

/-- C5 counterexample: `/etc/hostname` is written during a JOIN attempt with
no preceding backup event, so the claim's universal statement over all
written paths fails. -/
theorem backup_before_write_counterexample :
    ¬ (∀ p, FsEvent.write p ∈ join_attempt_fsEvents →
          backupPrecedesWrite p join_attempt_fsEvents = true) := by
  intro h
  exact absurd (h "/etc/hostname" (by decide)) (by decide)

/-- C5 amended: a backup precedes the first write for the resolver head
file and the hosts file in both attempt kinds, but the hostname file and
the Kerberos client configuration file are written during a JOIN attempt
with no backup at all. -/
theorem backup_before_write_amended :
    backupPrecedesWrite RESOLVCNF_HEAD join_attempt_fsEvents = true
    ∧ backupPrecedesWrite HOSTS_FILE join_attempt_fsEvents = true
    ∧ backupPrecedesWrite RESOLVCNF_HEAD create_attempt_fsEvents = true
    ∧ backupPrecedesWrite HOSTS_FILE create_attempt_fsEvents = true
    ∧ FsEvent.write "/etc/hostname" ∈ join_attempt_fsEvents
    ∧ backupPrecedesWrite "/etc/hostname" join_attempt_fsEvents = false
    ∧ FsEvent.write "/etc/krb5.conf" ∈ join_attempt_fsEvents
    ∧ backupPrecedesWrite "/etc/krb5.conf" join_attempt_fsEvents = false := by
  decide

/-! ### C6: ping failure blocks the resolver update but is not reported -/

/-- C6 counterexample: on an interactive ping failure the update is indeed
blocked before any backup or write, but `main` discards the returned
`(False, msg)` tuple (lines 467, 532), so the failure message is never
shown: the claim's "reported to the user" conjunct fails at this concrete
input. -/
theorem ping_failure_not_reported_counterexample :
    ¬ ((update_resolvconf "example.lan" "10.0.0.7" true false
          ⟨"nameserver 1.1.1.1\n".toList, none, "hosts\n".toList, none⟩).2
        = ⟨"nameserver 1.1.1.1\n".toList, none, "hosts\n".toList, none⟩
      ∧ ping_fail_msg "10.0.0.7" ∈
          (main_update_resolvconf_call "example.lan" "10.0.0.7" true false
            ⟨"nameserver 1.1.1.1\n".toList, none, "hosts\n".toList, none⟩).2) := by
  decide

/-- C6 amended: when the ping fails, `update_resolvconf` performs no backup
and no write (the filesystem is returned unchanged); interactively it
returns a blocked outcome carrying the unreachability message, which the
caller discards without showing any dialog; non-interactively the process
exits fatally with that message. -/
theorem ping_failure_blocks_update_amended
    (domainArg nameserver : String) (fs : Fs) :
    update_resolvconf domainArg nameserver true false fs
      = (.blocked (ping_fail_msg nameserver), fs)
    ∧ update_resolvconf domainArg nameserver false false fs
      = (.fatalExit (ping_fail_msg nameserver), fs)
    ∧ main_update_resolvconf_call domainArg nameserver true false fs = (fs, []) := by
  exact ⟨rfl, rfl, rfl⟩

/-! ### C8: the password prompt is invoked with an unknown keyword -/

/-- C8: `main` passes `blacklist=['(', ')']` to `Dialog.get_password`, but
`get_password` declares no such parameter (and no `**kwargs`), so the
keyword binding fails — at runtime the interactive password prompt raises
`TypeError` instead of returning a policy-checked password. -/
theorem get_password_blacklist_kwarg_rejected :
    pythonKwargsBindOk get_password_declaredParams main_get_password_kwargs = false
    ∧ "blacklist" ∈ main_get_password_kwargs
    ∧ "blacklist" ∉ get_password_declaredParams := by decide

/-! ### C9: after a failed JOIN step the hostname is retained -/

/-- C9 counterexample: at a session whose user-entered hostname is "dc2x",
the failure reset clears the join-nameserver but leaves the hostname in
place, so the claim that both are reset to empty is false. -/
theorem join_failure_hostname_counterexample :
    ¬ ((failureReset
          ⟨"EX.LAN", "EX", "Pw1", "10.0.0.7", "dc2x",
           "DOMAIN.LAN", "DOMAIN", ""⟩).join_nameserver = ""
        ∧ (failureReset
          ⟨"EX.LAN", "EX", "Pw1", "10.0.0.7", "dc2x",
           "DOMAIN.LAN", "DOMAIN", ""⟩).hostname = "") := by decide

/-- C9 amended: the failure reset clears the user-entered join-nameserver
(remembering it as the next prompt default) but retains the user-entered
hostname unchanged for the next attempt. -/
theorem join_failure_reset_amended (s : Session) :
    (failureReset s).join_nameserver = ""
    ∧ (failureReset s).DEFAULT_NS = s.join_nameserver
    ∧ (failureReset s).hostname = s.hostname := ⟨rfl, rfl, rfl⟩

/-! ### C10: `get_input` never returns the empty string -/

/-- C10: whenever `get_input` returns a string, that string is non-empty,
and every message shown on the way was `'<title> is required.'` (one per
empty entry, after which the user is re-prompted). -/
theorem get_input_returns_nonempty (title : String) (inputs : List String)
    (s : String) (h : (get_input title inputs).1 = some s) :
    s ≠ "" ∧ ∀ e ∈ (get_input title inputs).2, e = title ++ " is required." := by
  induction inputs with
  | nil => simp [get_input] at h
  | cons a rest ih =>
    by_cases ha : a = ""
    · simp only [get_input, if_pos ha] at h ⊢
      obtain ⟨h1, h2⟩ := ih h
      refine ⟨h1, ?_⟩
      intro e he
      rcases List.mem_cons.mp he with rfl | he2
      · rfl
      · exact h2 e he2
    · simp only [get_input, if_neg ha] at h ⊢
      obtain rfl : a = s := by simpa using h
      exact ⟨ha, by simp⟩

/-- Witness for C10 at a concrete entry sequence: an empty entry followed by
a non-empty one. -/
theorem get_input_returns_nonempty_witness :
    "10.0.0.7" ≠ ""
    ∧ ∀ e ∈ (get_input "Add nameserver" ["", "10.0.0.7"]).2,
        e = "Add nameserver" ++ " is required." :=
  get_input_returns_nonempty "Add nameserver" ["", "10.0.0.7"] "10.0.0.7" (by decide)

/-! ### C1 counterexample -/

/-- C1 counterexample: `valid_ip` accepts the three-part string
`"192.168.1"` (which `inet_aton` reads as `192.168.0.1`), although it is
not a strict dotted quad — the claim states that exactly the strict dotted
quads are accepted and names this very input as rejected. -/
theorem valid_ip_shorthand_counterexample :
    valid_ip "192.168.1" = some "192.168.1"
    ∧ strictDottedQuad "192.168.1" = false := by decide

/-! ### C4 counterexample -/

/-- C4 counterexample: on this captured output the code's condensed message
differs from the claim's description — a `Failed to connect` line
contributes only the text before its first hyphen (not two segments), and a
`Failed to bind` line after an `ERROR` line still contributes (it is not
suppressed). -/
theorem condensed_message_counterexample :
    condensedErrorLines
        ("Failed to connect - ldap - refused\nERROR-auth-denied\nFailed to bind a-b-c\ntail").toList
      ≠ condensedErrorLinesClaim
        ("Failed to connect - ldap - refused\nERROR-auth-denied\nFailed to bind a-b-c\ntail").toList := by
  decide

/-! ### C7 counterexample -/

/-- C7 counterexample: `update_hosts` is not idempotent for every
IP/hostname/domain triple.  With the valid address `ip = "127.0.1.10"` —
of which the loopback alias `"127.0.1.1"` is a proper string prefix — the
generated `ip` line is itself rewritten as a loopback-alias line on the
second run, duplicating lines. -/
theorem update_hosts_not_idempotent_counterexample :
    update_hosts "127.0.1.10".toList "dc2".toList "example.lan".toList
        (update_hosts "127.0.1.10".toList "dc2".toList "example.lan".toList
          "127.0.1.1 old\n".toList)
      ≠ update_hosts "127.0.1.10".toList "dc2".toList "example.lan".toList
          "127.0.1.1 old\n".toList := by decide

/-! ### C4 amended: characterising the condensed message -/

theorem prefix_either {xs ys l : List Char} (h1 : xs <+: l) (h2 : ys <+: l) :
    xs <+: ys ∨ ys <+: xs :=
  List.prefix_or_prefix_of_prefix h1 h2

theorem bind_not_error {l : List Char} (h : bindMarker <+: l) :
    ¬ errorMarker <+: l := by
  intro he
  rcases prefix_either h he with h1 | h1
  · exact absurd h1 (by decide)
  · exact absurd h1 (by decide)

theorem connect_not_error {l : List Char} (h : connectMarker <+: l) :
    ¬ errorMarker <+: l := by
  intro he
  rcases prefix_either h he with h1 | h1
  · exact absurd h1 (by decide)
  · exact absurd h1 (by decide)

theorem condenseAux_eq_amendedAux (lines : List (List Char)) :
    ∀ endFlag, condenseAux lines endFlag = condenseAmendedAux lines endFlag := by
  induction lines with
  | nil => intro e; rfl
  | cons line rest ih =>
    intro e
    by_cases hb : bindMarker <+: line
    · have hne : ¬ errorMarker <+: line := bind_not_error hb
      simp [condenseAux, condenseAmendedAux, markerContribution, hb, hne, ih]
    · by_cases hc : connectMarker <+: line
      · have hne : ¬ errorMarker <+: line := connect_not_error hc
        simp [condenseAux, condenseAmendedAux, markerContribution, hb, hc, hne, ih]
      · by_cases herr : errorMarker <+: line
        · simp [condenseAux, condenseAmendedAux, markerContribution, hb, hc, herr, ih]
        · cases e <;>
            simp [condenseAux, condenseAmendedAux, markerContribution, hb, hc, herr, ih]

/-- C4 amended: the condensed interactive error message is exactly: per
line, a `Failed to bind` line contributes its first two hyphen-delimited
segments, a `Failed to connect` line contributes the text before its first
hyphen, an `ERROR` line contributes its first two hyphen-delimited segments
and starts suppression of all subsequent non-marker lines (marker lines
still contribute), other lines pass through until suppression starts; an
empty line and a pointer to the full log file are appended. -/
theorem condensed_message_amended (out : List Char) :
    condensedErrorLines out = condensedErrorLinesAmended out := by
  unfold condensedErrorLines condensedErrorLinesAmended
  rw [condenseAux_eq_amendedAux]

/-! ### C1 amended: every canonical strict dotted quad is accepted -/

theorem pySplit_ne_nil (sep : Char) (cs : List Char) : pySplit sep cs ≠ [] := by
  cases cs with
  | nil => simp [pySplit]
  | cons c cs =>
    simp only [pySplit]
    split
    · simp
    · split <;> simp

theorem joinDots_pySplit (cs : List Char) : joinDots (pySplit '.' cs) = cs := by
  induction cs with
  | nil => rfl
  | cons c cs ih =>
    by_cases hc : c = '.'
    · obtain ⟨p0, ps0, hps⟩ := List.exists_cons_of_ne_nil (pySplit_ne_nil '.' cs)
      rw [hps] at ih
      subst hc
      simp only [pySplit, if_pos rfl, hps, joinDots]
      simpa using ih
    · obtain ⟨p0, ps0, hps⟩ := List.exists_cons_of_ne_nil (pySplit_ne_nil '.' cs)
      rw [hps] at ih
      simp only [pySplit, if_neg hc, hps]
      cases ps0 with
      | nil => simpa [joinDots] using congrArg (c :: ·) ih
      | cons q rest =>
        simp only [joinDots] at ih ⊢
        simpa using congrArg (c :: ·) ih

theorem canonOctet_parts {p : List Char} (hp : canonOctet p = true) :
    p ≠ [] ∧ (∀ c ∈ p, c.isDigit = true) ∧ decValue p ≤ 255 := by
  have h1 : octetOk p = true := by
    simp only [canonOctet, Bool.and_eq_true] at hp
    exact hp.1
  simp only [octetOk, Bool.and_eq_true, Bool.not_eq_true', List.all_eq_true,
    decide_eq_true_eq] at h1
  refine ⟨?_, fun c hc => h1.1.2 c hc, h1.2⟩
  intro hnil
  subst hnil
  simp at h1

theorem canonOctet_zero {p' : List Char} (hp : canonOctet ('0' :: p') = true) :
    p' = [] := by
  simp only [canonOctet, Bool.and_eq_true, Bool.or_eq_true, bne_iff_ne, ne_eq,
    beq_iff_eq] at hp
  rcases hp.2 with h | h
  · exact absurd (rfl : ('0' :: p').headD ' ' = '0') h
  · simpa using h

theorem decDigits_append (p r : List Char) (acc : Nat)
    (hp : ∀ c ∈ p, c.isDigit = true)
    (hr : r = [] ∨ ∃ c' t, r = c' :: t ∧ c'.isDigit = false) :
    decDigits (p ++ r) acc
      = (p.foldl (fun a c => a * 10 + (c.toNat - 48)) acc, r) := by
  induction p generalizing acc with
  | nil =>
    rcases hr with rfl | ⟨c', t, rfl, hc⟩
    · simp [decDigits]
    · simp [decDigits, hc]
  | cons c p ih =>
    have hc : c.isDigit = true := hp c (by simp)
    simpa [decDigits, hc] using
      ih (acc * 10 + (c.toNat - 48)) (fun x hx => hp x (by simp [hx]))

theorem parseNum_canonOctet (p r : List Char)
    (hp : canonOctet p = true)
    (hr : r = [] ∨ ∃ t, r = '.' :: t) :
    parseNum (p ++ r) = (decValue p, r) := by
  obtain ⟨hne, hdig, _⟩ := canonOctet_parts hp
  obtain ⟨c, p', rfl⟩ := List.exists_cons_of_ne_nil hne
  by_cases hc0 : c = '0'
  · subst hc0
    have hp' : p' = [] := canonOctet_zero hp
    subst hp'
    rcases hr with rfl | ⟨t, rfl⟩
    · rfl
    · simp [parseNum, octDigits, isOctDigitB, decValue]
  · have hrd : c :: p' ++ r = c :: (p' ++ r) := rfl
    rw [hrd]
    simp only [parseNum, if_neg hc0]
    have := decDigits_append (c :: p') r 0 hdig
      (by
        rcases hr with rfl | ⟨t, rfl⟩
        · exact Or.inl rfl
        · exact Or.inr ⟨'.', t, rfl, by decide⟩)
    simpa [decValue] using this

theorem atonAux_joinDots (ps : List (List Char)) :
    ∀ fuel, ps ≠ [] → ps.length ≤ fuel + 1 →
      (∀ p ∈ ps, canonOctet p = true) →
      atonAux fuel (2 ^ (8 * (fuel + 1)) - 1) (joinDots ps) = true := by
  induction ps with
  | nil => intro fuel h; exact absurd rfl h
  | cons p ps ih =>
    intro fuel _ hlen hall
    have hp : canonOctet p = true := hall p (by simp)
    obtain ⟨hne, hdig, h255⟩ := canonOctet_parts hp
    obtain ⟨c, p', rfl⟩ := List.exists_cons_of_ne_nil hne
    have hcd : c.isDigit = true := hdig c (by simp)
    have hbound : (255 : Nat) ≤ 2 ^ (8 * (fuel + 1)) - 1 := by
      have hp8 : (2 : Nat) ^ 8 ≤ 2 ^ (8 * (fuel + 1)) :=
        Nat.pow_le_pow_right (by norm_num) (by omega)
      omega
    cases ps with
    | nil =>
      have hpn : parseNum (c :: p') = (decValue (c :: p'), []) := by
        simpa using parseNum_canonOctet (c :: p') [] hp (Or.inl rfl)
      simp only [joinDots, atonAux, hcd, if_true, hpn, atonTrailOk]
      simp only [Bool.true_and, decide_eq_true_eq]
      omega
    | cons q ps' =>
      have hpn : parseNum (c :: (p' ++ '.' :: joinDots (q :: ps')))
          = (decValue (c :: p'), '.' :: joinDots (q :: ps')) := by
        have := parseNum_canonOctet (c :: p') ('.' :: joinDots (q :: ps')) hp
          (Or.inr ⟨_, rfl⟩)
        simpa using this
      obtain ⟨f, rfl⟩ : ∃ f, fuel = f + 1 := by
        cases fuel with
        | zero => simp at hlen
        | succ f => exact ⟨f, rfl⟩
      have hdiv : (2 ^ (8 * (f + 1 + 1)) - 1) / 256 = 2 ^ (8 * (f + 1)) - 1 := by
        have h1 : (2 : Nat) ^ (8 * (f + 1 + 1)) = 2 ^ (8 * (f + 1)) * 256 := by
          rw [show 8 * (f + 1 + 1) = 8 * (f + 1) + 8 by ring, pow_add]
          norm_num
        have h2 : (1 : Nat) ≤ 2 ^ (8 * (f + 1)) := Nat.one_le_two_pow
        have h3 : 2 ^ (8 * (f + 1)) * 256 - 1 = 255 + (2 ^ (8 * (f + 1)) - 1) * 256 := by
          omega
        rw [h1, h3, Nat.add_mul_div_right _ _ (by norm_num : (0 : Nat) < 256)]
        omega
      have hrec := ih f (by simp) (by simpa using hlen)
        (fun x hx => hall x (by simp [hx]))
      simp only [joinDots, List.cons_append, atonAux, hcd, if_true, hpn]
      simp only [hdiv, hrec, Bool.and_true, decide_eq_true_eq]
      omega

/-- C1 amended: `valid_ip` accepts the numbers-and-dots grammar of
`inet_aton`, which is strictly wider than the strict dotted-quad grammar:
every canonical dotted quad (four decimal octets 0-255 with no redundant
leading zeros) is accepted, `"192.168.1.10"` is accepted and
`"192.168.1.256"` rejected as the claim says, but shorthand forms such as
`"192.168.1"` are accepted as well. -/
theorem valid_ip_amended :
    (∀ s : String, strictDottedQuadCanonical s = true → valid_ip s = some s)
    ∧ valid_ip "192.168.1.10" = some "192.168.1.10"
    ∧ valid_ip "192.168.1" = some "192.168.1"
    ∧ valid_ip "192.168.1.256" = none := by
  refine ⟨?_, by decide, by decide, by decide⟩
  intro s hs
  simp only [strictDottedQuadCanonical, Bool.and_eq_true, beq_iff_eq,
    List.all_eq_true] at hs
  obtain ⟨hlen, hall⟩ := hs
  have hne : pySplit '.' s.toList ≠ [] := pySplit_ne_nil '.' s.toList
  have h := atonAux_joinDots (pySplit '.' s.toList) 3 hne (by omega)
    (fun p hp => hall p hp)
  rw [joinDots_pySplit] at h
  have hmax : (2 : Nat) ^ (8 * (3 + 1)) - 1 = 0xffffffff := by norm_num
  rw [hmax] at h
  have h' : atonAux 3 4294967295 s.data = true := h
  simp [valid_ip, inet_aton_ok, String.toList, h']

/-- Witness for the universal part of C1 amended at `"10.0.0.1"`. -/
theorem valid_ip_amended_witness :
    strictDottedQuadCanonical "10.0.0.1" = true
    ∧ valid_ip "10.0.0.1" = some "10.0.0.1" :=
  ⟨by decide, valid_ip_amended.1 "10.0.0.1" (by decide)⟩

/-! ### C7 amended: idempotence of `update_hosts` under side conditions

The proof works at the level of "chunk lists": `readlines` splits a file
into newline-terminated lines (the last possibly unterminated),
`processLine` maps each line to a list of chunks, and writing out is
flattening.  The shape invariant `BlocksOK` is preserved, flattening an
OK chunk list and re-reading it yields exactly its nonempty chunks, and
each per-line chunk group is stable under a second pass. -/

theorem readlines_append_term (a t : List Char) (ha : '\n' ∉ a) :
    readlines (a ++ '\n' :: t) = (a ++ ['\n']) :: readlines t := by
  induction a with
  | nil => simp [readlines]
  | cons c a ih =>
    have hc : c ≠ '\n' := fun h => ha (by simp [h])
    have ha' : '\n' ∉ a := fun h => ha (by simp [h])
    simp only [List.cons_append, readlines, if_neg hc, List.append_eq, ih ha']

theorem readlines_noNewline (a : List Char) (ha : '\n' ∉ a) (hne : a ≠ []) :
    readlines a = [a] := by
  induction a with
  | nil => exact absurd rfl hne
  | cons c a ih =>
    have hc : c ≠ '\n' := fun h => ha (by simp [h])
    have ha' : '\n' ∉ a := fun h => ha (by simp [h])
    by_cases haz : a = []
    · subst haz
      simp [readlines, hc]
    · simp only [readlines, if_neg hc, ih ha' haz]

theorem readlines_head_ne_nil (cs : List Char) :
    ∀ l ls, readlines cs = l :: ls → l ≠ [] := by
  cases cs with
  | nil => intro l ls h; simp [readlines] at h
  | cons c cs =>
    intro l ls h
    simp only [readlines] at h
    split at h
    · injection h with h1 h2
      rw [← h1]
      simp
    · split at h
      · injection h with h1 h2
        rw [← h1]
        simp
      · injection h with h1 h2
        rw [← h1]
        simp

theorem blocksOK_cons_elim {l0 : List Char} {ls0 : List (List Char)}
    (h : BlocksOK (l0 :: ls0)) :
    (l0 = [] ∧ BlocksOK ls0)
    ∨ (∃ a, '\n' ∉ a ∧ l0 = a ++ ['\n'] ∧ BlocksOK ls0)
    ∨ ('\n' ∉ l0 ∧ l0 ≠ [] ∧ ls0 = []) := by
  cases h with
  | consEmpty ls h0 => exact Or.inl ⟨rfl, h0⟩
  | consTerm a ls hna hok => exact Or.inr (Or.inl ⟨a, hna, rfl, hok⟩)
  | lastRaw a hna hne => exact Or.inr (Or.inr ⟨hna, hne, rfl⟩)

theorem readlines_blocksOK (cs : List Char) : BlocksOK (readlines cs) := by
  induction cs with
  | nil => exact .nil
  | cons c cs ih =>
    by_cases hc : c = '\n'
    · subst hc
      simp only [readlines, if_pos rfl]
      exact .consTerm [] _ (by simp) ih
    · have hnc : '\n' ∉ [c] := by
        simp only [List.mem_singleton]
        exact fun h => hc h.symm
      simp only [readlines, if_neg hc]
      rcases hrl : readlines cs with _ | ⟨l0, ls0⟩
      · exact .lastRaw [c] hnc (by simp)
      · show BlocksOK ((c :: l0) :: ls0)
        have hl0 : l0 ≠ [] := readlines_head_ne_nil cs l0 ls0 hrl
        rw [hrl] at ih
        rcases blocksOK_cons_elim ih with ⟨h0, -⟩ | ⟨a, hna, rfl, hok⟩ | ⟨hna, hne, rfl⟩
        · exact absurd h0 hl0
        · rw [show c :: (a ++ ['\n']) = (c :: a) ++ ['\n'] by simp]
          refine .consTerm (c :: a) ls0 ?_ hok
          intro hmem
          rcases List.mem_cons.mp hmem with h | h
          · exact hc h.symm
          · exact hna h
        · refine .lastRaw (c :: l0) ?_ (by simp)
          intro hmem
          rcases List.mem_cons.mp hmem with h | h
          · exact hc h.symm
          · exact hna h

theorem blocksOK_append (bs rest : List (List Char))
    (hbs : ∀ l ∈ bs, GoodBlock l) (hrest : BlocksOK rest) :
    BlocksOK (bs ++ rest) := by
  induction bs with
  | nil => simpa using hrest
  | cons b bs ih =>
    have hb := hbs b (by simp)
    have ih' := ih (fun l hl => hbs l (by simp [hl]))
    rcases hb with rfl | ⟨a, hna, rfl⟩
    · exact .consEmpty _ ih'
    · exact .consTerm a _ hna ih'

theorem readlines_flatten_blocksOK (bs : List (List Char)) (h : BlocksOK bs) :
    readlines bs.flatten = bs.filter (fun l => !l.isEmpty) := by
  induction h with
  | nil => simp [readlines]
  | consEmpty ls _ ih => simpa using ih
  | consTerm a ls hna _ ih =>
    have : (a ++ ['\n']) ++ ls.flatten = a ++ '\n' :: ls.flatten := by simp
    simp only [List.flatten_cons, this, readlines_append_term a ls.flatten hna, ih,
      List.filter_cons]
    simp
  | lastRaw a hna hne =>
    simp only [List.flatten_cons, List.flatten_nil, List.append_nil,
      readlines_noNewline a hna hne, List.filter_cons, List.filter_nil]
    simp [List.isEmpty_iff, hne]

theorem char_toNat_ofNat {n : Nat} (h : n.isValidChar) : (Char.ofNat n).toNat = n := by
  simp [Char.ofNat, h, Char.ofNatAux, Char.toNat, UInt32.ofNat', UInt32.toNat]

theorem pyLower_ne_newline {c : Char} (hc : c ≠ '\n') : pyLower c ≠ '\n' := by
  unfold pyLower
  by_cases hu : c.isUpper
  · rw [if_pos hu]
    have hb : 65 ≤ c.toNat ∧ c.toNat ≤ 90 := by
      simp only [Char.isUpper, Bool.and_eq_true, decide_eq_true_eq] at hu
      exact ⟨hu.1, hu.2⟩
    have hv : (c.toNat + 32).isValidChar := Or.inl (by omega)
    intro hEq
    have h10 : (Char.ofNat (c.toNat + 32)).toNat = Char.toNat '\n' := congrArg Char.toNat hEq
    rw [char_toNat_ofNat hv] at h10
    have : Char.toNat '\n' = 10 := rfl
    omega
  · rw [if_neg hu]
    exact hc

theorem noNL_fqdnOf {h d : List Char} (hh : '\n' ∉ h) (hd : '\n' ∉ d) :
    '\n' ∉ fqdnOf h d := by
  unfold fqdnOf
  intro hm
  rcases List.mem_map.mp hm with ⟨c, hcmem, hceq⟩
  refine pyLower_ne_newline ?_ hceq
  rcases List.mem_append.mp hcmem with h1 | h1
  · exact fun he => hh (he ▸ h1)
  · rcases List.mem_cons.mp h1 with rfl | h2
    · exact (by decide : ('.' : Char) ≠ '\n')
    · exact fun he => hd (he ▸ h2)

theorem mkHostLine_shape (a h f : List Char) :
    mkHostLine a h f = (a ++ ' ' :: h ++ ' ' :: f) ++ ['\n'] := by
  simp [mkHostLine]

theorem noNL_mkHostLine_core {a h f : List Char}
    (ha : '\n' ∉ a) (hh : '\n' ∉ h) (hf : '\n' ∉ f) :
    '\n' ∉ (a ++ ' ' :: h ++ ' ' :: f) := by
  intro hm
  simp only [List.append_assoc, List.cons_append, List.mem_append, List.mem_cons] at hm
  rcases hm with h1 | h1 | h1 | h1 | h1
  · exact ha h1
  · exact absurd h1 (by decide)
  · exact hh h1
  · exact absurd h1 (by decide)
  · exact hf h1

theorem goodBlock_mkHostLine {a h f : List Char}
    (ha : '\n' ∉ a) (hh : '\n' ∉ h) (hf : '\n' ∉ f) :
    GoodBlock (mkHostLine a h f) :=
  Or.inr ⟨a ++ ' ' :: h ++ ' ' :: f, noNL_mkHostLine_core ha hh hf, mkHostLine_shape a h f⟩

theorem not_hash_of_local {l : List Char} (h : localdomainChars <+: l) :
    ¬ ['#'] <+: l := by
  rcases h with ⟨t, rfl⟩
  intro hc
  rw [show localdomainChars ++ t = '1' :: ("27.0.1.1".toList ++ t) from rfl] at hc
  rw [List.cons_prefix_cons] at hc
  exact absurd hc.1 (by decide)

theorem ip_prefix_mkHostLine (ip h f : List Char) : ip <+: mkHostLine ip h f := by
  unfold mkHostLine
  simp only [List.append_assoc]
  exact List.prefix_append _ _

theorem not_local_prefix_mkHostLine {ip : List Char} (h f : List Char)
    (hext : localdomainChars <+: ip → ip = localdomainChars)
    (hne : ip ≠ localdomainChars) :
    ¬ localdomainChars <+: mkHostLine ip h f := by
  intro hld
  rcases prefix_either hld (ip_prefix_mkHostLine ip h f) with h1 | h1
  · exact hne (hext h1)
  · obtain ⟨t, ht⟩ := h1
    rcases t with _ | ⟨d, t'⟩
    · exact hne (by simpa using ht)
    · have hld2 : (ip ++ d :: t') <+: mkHostLine ip h f := ht ▸ hld
      unfold mkHostLine at hld2
      simp only [List.append_assoc] at hld2
      have hsuf := (List.prefix_append_right_inj ip).mp hld2
      simp only [List.cons_append, List.cons_prefix_cons] at hsuf
      obtain ⟨rfl, -⟩ := hsuf
      have hspace : ' ' ∈ localdomainChars := by
        rw [← ht]
        exact List.mem_append_right _ (List.mem_cons_self _ _)
      exact absurd hspace (by decide)

theorem not_hash_prefix_mkHostLine {ip : List Char} (h f : List Char)
    (hip : ¬ ['#'] <+: ip) :
    ¬ ['#'] <+: mkHostLine ip h f := by
  cases ip with
  | nil =>
    intro hc
    unfold mkHostLine at hc
    simp only [List.nil_append, List.cons_append, List.cons_prefix_cons] at hc
    exact absurd hc.1 (by decide)
  | cons a ip' =>
    intro hc
    unfold mkHostLine at hc
    simp only [List.cons_append, List.cons_prefix_cons] at hc
    exact hip (List.cons_prefix_cons.mpr ⟨hc.1, List.nil_prefix⟩)

theorem processLine_nil (ip h f : List Char) : processLine ip h f [] = [[]] := by
  unfold processLine
  rw [if_neg (by decide : ¬ (['#'] : List Char) <+: []),
    if_neg (by decide : ¬ localdomainChars <+: [])]
  by_cases h3 : ip <+: ([] : List Char)
  · rw [if_pos h3]
  · rw [if_neg h3]

theorem processLine_comment {l : List Char} (ip h f : List Char)
    (hc : ['#'] <+: l) : processLine ip h f l = [l] := by
  unfold processLine
  rw [if_pos hc]

theorem processLine_local {l : List Char} (ip h f : List Char)
    (hl : localdomainChars <+: l) :
    processLine ip h f l =
      if ip ≠ localdomainChars then
        [mkHostLine localdomainChars h f, mkHostLine ip h f]
      else [mkHostLine localdomainChars h f] := by
  unfold processLine
  rw [if_neg (not_hash_of_local hl), if_pos hl]

theorem processLine_del {l : List Char} (ip h f : List Char)
    (h1 : ¬ ['#'] <+: l) (h2 : ¬ localdomainChars <+: l) (h3 : ip <+: l) :
    processLine ip h f l = [[]] := by
  unfold processLine
  rw [if_neg h1, if_neg h2, if_pos h3]

theorem processLine_other {l : List Char} (ip h f : List Char)
    (h1 : ¬ ['#'] <+: l) (h2 : ¬ localdomainChars <+: l) (h3 : ¬ ip <+: l) :
    processLine ip h f l = [l] := by
  unfold processLine
  rw [if_neg h1, if_neg h2, if_neg h3]

theorem processLine_goodBlocks {ip h f : List Char}
    (hnip : '\n' ∉ ip) (hnh : '\n' ∉ h) (hnf : '\n' ∉ f)
    {l : List Char} (hl : GoodBlock l) :
    ∀ b ∈ processLine ip h f l, GoodBlock b := by
  have hld : '\n' ∉ localdomainChars := by decide
  intro b hb
  by_cases h1 : ['#'] <+: l
  · rw [processLine_comment ip h f h1] at hb
    rw [List.mem_singleton.mp hb]
    exact hl
  · by_cases h2 : localdomainChars <+: l
    · rw [processLine_local ip h f h2] at hb
      by_cases h3 : ip = localdomainChars
      · rw [if_neg (by simpa using h3)] at hb
        rw [List.mem_singleton.mp hb]
        exact goodBlock_mkHostLine hld hnh hnf
      · rw [if_pos h3] at hb
        rcases List.mem_cons.mp hb with rfl | hb2
        · exact goodBlock_mkHostLine hld hnh hnf
        · rw [List.mem_singleton.mp hb2]
          exact goodBlock_mkHostLine hnip hnh hnf
    · by_cases h3 : ip <+: l
      · rw [processLine_del ip h f h1 h2 h3] at hb
        rw [List.mem_singleton.mp hb]
        exact Or.inl rfl
      · rw [processLine_other ip h f h1 h2 h3] at hb
        rw [List.mem_singleton.mp hb]
        exact hl

theorem processLine_blocksOK_raw {ip h f : List Char}
    (hnip : '\n' ∉ ip) (hnh : '\n' ∉ h) (hnf : '\n' ∉ f)
    {l : List Char} (hnl : '\n' ∉ l) (hne : l ≠ []) :
    BlocksOK (processLine ip h f l) := by
  have hld : '\n' ∉ localdomainChars := by decide
  have hlcOK : BlocksOK [mkHostLine localdomainChars h f] := by
    rw [mkHostLine_shape]
    exact .consTerm _ [] (noNL_mkHostLine_core hld hnh hnf) .nil
  by_cases h1 : ['#'] <+: l
  · rw [processLine_comment ip h f h1]
    exact .lastRaw l hnl hne
  · by_cases h2 : localdomainChars <+: l
    · rw [processLine_local ip h f h2]
      by_cases h3 : ip = localdomainChars
      · rw [if_neg (by simpa using h3)]
        exact hlcOK
      · rw [if_pos h3]
        rw [mkHostLine_shape localdomainChars h f, mkHostLine_shape ip h f]
        exact .consTerm _ _ (noNL_mkHostLine_core hld hnh hnf)
          (.consTerm _ [] (noNL_mkHostLine_core hnip hnh hnf) .nil)
    · by_cases h3 : ip <+: l
      · rw [processLine_del ip h f h1 h2 h3]
        exact .consEmpty [] .nil
      · rw [processLine_other ip h f h1 h2 h3]
        exact .lastRaw l hnl hne

theorem processLine_bind_blocksOK {ip h f : List Char}
    (hnip : '\n' ∉ ip) (hnh : '\n' ∉ h) (hnf : '\n' ∉ f)
    {ls : List (List Char)} (hok : BlocksOK ls) :
    BlocksOK ((ls.map (processLine ip h f)).flatten) := by
  induction hok with
  | nil => exact .nil
  | consEmpty ls hok ih =>
    simp only [List.map_cons, List.flatten_cons]
    exact blocksOK_append _ _
      (processLine_goodBlocks hnip hnh hnf (Or.inl rfl)) ih
  | consTerm a ls hna hok ih =>
    simp only [List.map_cons, List.flatten_cons]
    exact blocksOK_append _ _
      (processLine_goodBlocks hnip hnh hnf (Or.inr ⟨a, hna, rfl⟩)) ih
  | lastRaw a hna hne =>
    simp only [List.map_cons, List.map_nil, List.flatten_cons, List.flatten_nil,
      List.append_nil]
    exact processLine_blocksOK_raw hnip hnh hnf hna hne

theorem flatten_map_filter_eq (ip h f : List Char) (bs : List (List Char)) :
    (((bs.filter (fun l => !l.isEmpty)).map (processLine ip h f)).flatten).flatten
      = ((bs.map (processLine ip h f)).flatten).flatten := by
  induction bs with
  | nil => rfl
  | cons b bs ih =>
    by_cases hb : b = []
    · subst hb
      simpa [List.filter_cons, processLine_nil] using ih
    · have hbe : (!b.isEmpty) = true := by
        simp [List.isEmpty_iff, hb]
      simp [List.filter_cons, hbe, ih]

theorem processLine_idem {ip h f : List Char}
    (hhash : ¬ ['#'] <+: ip)
    (hext : localdomainChars <+: ip → ip = localdomainChars)
    (l : List Char) :
    (((processLine ip h f l).map (processLine ip h f)).flatten).flatten
      = (processLine ip h f l).flatten := by
  by_cases h1 : ['#'] <+: l
  · rw [processLine_comment ip h f h1]
    simp only [List.map_cons, List.map_nil, List.flatten_cons, List.flatten_nil,
      List.append_nil]
    rw [processLine_comment ip h f h1]
    simp
  · by_cases h2 : localdomainChars <+: l
    · have hlocal : localdomainChars <+: mkHostLine localdomainChars h f :=
        ip_prefix_mkHostLine localdomainChars h f
      rw [processLine_local ip h f h2]
      by_cases h3 : ip = localdomainChars
      · rw [if_neg (by simpa using h3)]
        simp only [List.map_cons, List.map_nil, List.flatten_cons, List.flatten_nil,
          List.append_nil]
        rw [processLine_local ip h f hlocal, if_neg (by simpa using h3)]
        simp
      · rw [if_pos h3]
        have hlc : processLine ip h f (mkHostLine localdomainChars h f)
            = [mkHostLine localdomainChars h f, mkHostLine ip h f] := by
          rw [processLine_local ip h f hlocal, if_pos h3]
        have hic : processLine ip h f (mkHostLine ip h f) = [[]] :=
          processLine_del ip h f (not_hash_prefix_mkHostLine h f hhash)
            (not_local_prefix_mkHostLine h f hext h3) (ip_prefix_mkHostLine ip h f)
        simp [hlc, hic]
    · by_cases h3 : ip <+: l
      · rw [processLine_del ip h f h1 h2 h3]
        simp [processLine_nil]
      · rw [processLine_other ip h f h1 h2 h3]
        simp only [List.map_cons, List.map_nil, List.flatten_cons, List.flatten_nil,
          List.append_nil]
        rw [processLine_other ip h f h1 h2 h3]
        simp

theorem bind_idem_flatten (pl : List Char → List (List Char))
    (hidem : ∀ l, (((pl l).map pl).flatten).flatten = (pl l).flatten)
    (ls : List (List Char)) :
    ((((ls.map pl).flatten).map pl).flatten).flatten = ((ls.map pl).flatten).flatten := by
  induction ls with
  | nil => rfl
  | cons l ls ih =>
    simp only [List.map_cons, List.flatten_cons, List.map_append, List.flatten_append]
    rw [hidem l, ih]

/-- C7 amended: `update_hosts` is idempotent for every initial file content,
provided the `ip`, `hostname` and `domain` strings contain no newline, `ip`
does not begin with `#`, and the loopback alias `127.0.1.1` is not a proper
prefix of `ip`.  (The counterexample shows the last condition is necessary:
`ip = "127.0.1.10"` breaks idempotence.) -/
theorem update_hosts_idempotent_amended
    (ip hostname domainArg : List Char)
    (hnip : '\n' ∉ ip) (hnh : '\n' ∉ hostname) (hnd : '\n' ∉ domainArg)
    (hhash : ¬ ['#'] <+: ip)
    (hext : localdomainChars <+: ip → ip = localdomainChars)
    (content : List Char) :
    update_hosts ip hostname domainArg (update_hosts ip hostname domainArg content)
      = update_hosts ip hostname domainArg content := by
  have hnf : '\n' ∉ fqdnOf hostname domainArg := noNL_fqdnOf hnh hnd
  unfold update_hosts
  have hB : BlocksOK (((readlines content).map
      (processLine ip hostname (fqdnOf hostname domainArg))).flatten) :=
    processLine_bind_blocksOK hnip hnh hnf (readlines_blocksOK content)
  rw [readlines_flatten_blocksOK _ hB, flatten_map_filter_eq,
    bind_idem_flatten _ (processLine_idem hhash hext)]

/-- Witness for C7 amended: a typical CREATE-mode invocation
(`ip` the machine address, hostname `dc1`, realm `DOMAIN.LAN`) applied twice
to a stock hosts file. -/
theorem update_hosts_idempotent_amended_witness :
    update_hosts "10.0.2.15".toList "dc1".toList "DOMAIN.LAN".toList
        (update_hosts "10.0.2.15".toList "dc1".toList "DOMAIN.LAN".toList
          "127.0.0.1 localhost\n127.0.1.1 dc1\n# comment\n".toList)
      = update_hosts "10.0.2.15".toList "dc1".toList "DOMAIN.LAN".toList
          "127.0.0.1 localhost\n127.0.1.1 dc1\n# comment\n".toList :=
  update_hosts_idempotent_amended "10.0.2.15".toList "dc1".toList "DOMAIN.LAN".toList
    (by decide) (by decide) (by decide) (by decide) (by decide)
    "127.0.0.1 localhost\n127.0.1.1 dc1\n# comment\n".toList

end DomainController
